import Mathlib

/-!
Verification of the botpress-messaging channel core.

This file embeds, in Lean, the parts of the repository that the spec's
claims are about:

* `ScopeableService.forBot` (src/base/scopeable.ts) — the per-tenant lazy
  cache.  JavaScript object-property lookup is modelled by an association
  list (`scLookup`); assignment is modelled by consing, which shadows older
  entries for lookup, exactly as property assignment overwrites.  The
  JavaScript `if (!scope)` truthiness test is a parameter `truthy`.
* `SlackChannel.send` (src/api.ts) — context construction with a deep copy
  of the payload, the renderer loop and the sender loop.
* the interactive-button listener and the realtime message listener of
  `SlackChannel` (src/api.ts) — modelled as pure functions from an event to
  the ordered list of collaborator effects the handler performs; list order
  is the temporal order of awaited calls.

Renderer and sender implementations live outside the given sources; they are
kept abstract (an arbitrary `handles`/`render` resp. `handles`/`send` pair),
so every theorem about the chains holds for all implementations.
-/

namespace Messaging

/-! ## ScopeableService (src/base/scopeable.ts) -/

/-- JavaScript object-property read `this.scopes[botId]`: first binding wins,
missing key gives `none` (i.e. `undefined`). -/
def scLookup {T : Type} (b : String) : List (String × T) → Option T
  | [] => none
  | (k, v) :: rest => if k = b then some v else scLookup b rest

/-- `ScopeableService.forBot`, translated line by line:
`let scope = this.scopes[botId]; if (!scope) { scope = this.createScope(botId);
this.scopes[botId] = scope } return scope`.
`truthy` is the JavaScript truthiness test on `T`; `createScope` threads a
factory state `σ` so that instrumented factories (fresh ids, call counters)
can be plugged in.  Returns (result, new scopes map, new factory state). -/
def forBot {T σ : Type} (truthy : T → Bool) (createScope : σ → String → T × σ)
    (scopes : List (String × T)) (st : σ) (botId : String) :
    T × List (String × T) × σ :=
  match scLookup botId scopes with
  | some v =>
    if truthy v then (v, scopes, st)
    else
      ((createScope st botId).1, (botId, (createScope st botId).1) :: scopes,
        (createScope st botId).2)
  | none =>
    ((createScope st botId).1, (botId, (createScope st botId).1) :: scopes,
      (createScope st botId).2)

/-- Cache state for the instrumented run of `forBot`: the scopes map, a
fresh-instance counter (each created scope is a fresh id, modelling a fresh
JavaScript object, hence truthy), and the log of factory invocations. -/
structure ScopeCacheState where
  scopes : List (String × Nat)
  nextId : Nat
  calls : List String
  deriving Repr, DecidableEq

/-- The factory used for the instrumented run: allocates a fresh instance id
and logs the invocation. -/
def freshFactory (st : Nat × List String) (b : String) : Nat × (Nat × List String) :=
  (st.1, (st.1 + 1, st.2 ++ [b]))

/-- One `forBot` call in the instrumented run.  Created scopes are fresh
objects, hence truthy. -/
def scopeStep (s : ScopeCacheState) (b : String) : Nat × ScopeCacheState :=
  match forBot (fun _ => true) freshFactory s.scopes (s.nextId, s.calls) b with
  | (v, sc, st2) => (v, ⟨sc, st2.1, st2.2⟩)

/-- Run a sequence of `forBot` requests, returning the final cache state and
the list of returned instances (one per request, in order). -/
def scopeRun (s : ScopeCacheState) : List String → ScopeCacheState × List Nat
  | [] => (s, [])
  | b :: rest =>
    ((scopeRun (scopeStep s b).2 rest).1,
      (scopeStep s b).1 :: (scopeRun (scopeStep s b).2 rest).2)

/-- The state of a freshly constructed `ScopeableService`: empty map. -/
def scopeInit : ScopeCacheState := ⟨[], 0, []⟩

theorem scopeStep_of_lookup_some {s : ScopeCacheState} {b : String} {v : Nat}
    (h : scLookup b s.scopes = some v) : scopeStep s b = (v, s) := by
  simp [scopeStep, forBot, h]

theorem scopeStep_of_lookup_none {s : ScopeCacheState} {b : String}
    (h : scLookup b s.scopes = none) :
    scopeStep s b = (s.nextId, ⟨(b, s.nextId) :: s.scopes, s.nextId + 1, s.calls ++ [b]⟩) := by
  simp [scopeStep, forBot, h, freshFactory]

/-- After a step on `b`, the map resolves `b` to the returned instance. -/
theorem scopeStep_lookup_self (s : ScopeCacheState) (b : String) :
    scLookup b (scopeStep s b).2.scopes = some (scopeStep s b).1 := by
  cases h : scLookup b s.scopes with
  | some v => rw [scopeStep_of_lookup_some h]; exact h
  | none => rw [scopeStep_of_lookup_none h]; simp [scLookup]

/-- A step never changes an already-resolvable binding. -/
theorem scopeStep_lookup_stable {s : ScopeCacheState} {c : String} {v : Nat}
    (h : scLookup c s.scopes = some v) (b : String) :
    scLookup c (scopeStep s b).2.scopes = some v := by
  cases hb : scLookup b s.scopes with
  | some w => rw [scopeStep_of_lookup_some hb]; exact h
  | none =>
    rw [scopeStep_of_lookup_none hb]
    have hbc : b ≠ c := by
      intro e; rw [e, h] at hb; cases hb
    simp [scLookup, hbc, h]

theorem scopeRun_length (reqs : List String) :
    ∀ s : ScopeCacheState, ((scopeRun s reqs).2).length = reqs.length := by
  induction reqs with
  | nil => intro s; simp [scopeRun]
  | cons b rest ih => intro s; simp [scopeRun, ih]

theorem scopeRun_lookup_stable (reqs : List String) :
    ∀ (s : ScopeCacheState) (c : String) (v : Nat),
      scLookup c s.scopes = some v → scLookup c (scopeRun s reqs).1.scopes = some v := by
  induction reqs with
  | nil => intro s c v h; simpa [scopeRun] using h
  | cons b rest ih =>
    intro s c v h
    simp only [scopeRun]
    exact ih _ c v (scopeStep_lookup_stable h b)

/-- The i-th returned instance is exactly what the final map resolves the
i-th requested tenant id to. -/
theorem scopeRun_result_lookup (reqs : List String) :
    ∀ (s : ScopeCacheState) (i : Nat), i < reqs.length →
      scLookup (reqs.getD i "") (scopeRun s reqs).1.scopes
        = some ((scopeRun s reqs).2.getD i 0) := by
  induction reqs with
  | nil => intro s i hi; cases hi
  | cons b rest ih =>
    intro s i hi
    cases i with
    | zero =>
      simp only [scopeRun, List.getD_cons_zero]
      exact scopeRun_lookup_stable rest _ b _ (scopeStep_lookup_self s b)
    | succ i =>
      simp only [scopeRun, List.getD_cons_succ]
      exact ih _ i (Nat.lt_of_succ_lt_succ hi)

/-- Factory-invocation accounting: a run adds exactly one factory call for a
tenant id not yet in the map that occurs among the requests, and none
otherwise. -/
theorem scopeRun_calls_count (reqs : List String) :
    ∀ (s : ScopeCacheState) (b : String),
      (scopeRun s reqs).1.calls.count b =
        s.calls.count b + (if scLookup b s.scopes = none ∧ b ∈ reqs then 1 else 0) := by
  induction reqs with
  | nil => intro s b; simp [scopeRun]
  | cons c rest ih =>
    intro s b
    simp only [scopeRun]
    cases hc : scLookup c s.scopes with
    | some w =>
      rw [scopeStep_of_lookup_some hc, ih]
      by_cases hb : b = c
      · subst hb; simp [hc]
      · simp [List.mem_cons, hb]
    | none =>
      rw [scopeStep_of_lookup_none hc, ih]
      by_cases hb : b = c
      · subst hb
        simp [hc, scLookup, List.count_append]
      · have hcb : c ≠ b := fun h => hb h.symm
        have : scLookup b ((c, s.nextId) :: s.scopes) = scLookup b s.scopes := by
          simp [scLookup, hcb]
        simp only [this]
        simp [List.count_append, List.count_singleton, hcb, List.mem_cons, hb]

/-- The cache invariant: every stored instance id is below the fresh-id
counter, and stored instance ids are pairwise distinct. -/
def scopeInv (s : ScopeCacheState) : Prop :=
  (∀ p ∈ s.scopes, p.2 < s.nextId) ∧ (s.scopes.map Prod.snd).Nodup

theorem scopeStep_inv {s : ScopeCacheState} (h : scopeInv s) (b : String) :
    scopeInv (scopeStep s b).2 := by
  obtain ⟨hlt, hnd⟩ := h
  cases hb : scLookup b s.scopes with
  | some w => rw [scopeStep_of_lookup_some hb]; exact ⟨hlt, hnd⟩
  | none =>
    rw [scopeStep_of_lookup_none hb]
    refine ⟨?_, ?_⟩
    · intro p hp
      rcases List.mem_cons.1 hp with h1 | h2
      · subst h1; exact Nat.lt_succ_self _
      · exact Nat.lt_succ_of_lt (hlt p h2)
    · refine List.Nodup.cons ?_ hnd
      intro hmem
      rcases List.mem_map.1 hmem with ⟨p, hp, he⟩
      exact absurd (he ▸ hlt p hp) (lt_irrefl _)

theorem scopeRun_inv (reqs : List String) :
    ∀ s : ScopeCacheState, scopeInv s → scopeInv (scopeRun s reqs).1 := by
  induction reqs with
  | nil => intro s h; simpa [scopeRun] using h
  | cons b rest ih => intro s h; simp only [scopeRun]; exact ih _ (scopeStep_inv h b)

theorem scLookup_mem {T : Type} {b : String} {v : T} :
    ∀ {l : List (String × T)}, scLookup b l = some v → (b, v) ∈ l := by
  intro l
  induction l with
  | nil => intro h; cases h
  | cons p rest ih =>
    intro h
    obtain ⟨k, w⟩ := p
    by_cases hk : k = b
    · subst hk
      simp [scLookup] at h
      subst h; exact List.mem_cons_self _ _
    · simp only [scLookup, if_neg hk] at h
      exact List.mem_cons_of_mem _ (ih h)

/-- Under the invariant, lookups for distinct tenant ids give distinct
instances. -/
theorem scopeInv_lookup_inj {s : ScopeCacheState} (h : scopeInv s)
    {b1 b2 : String} {v1 v2 : Nat} (h1 : scLookup b1 s.scopes = some v1)
    (h2 : scLookup b2 s.scopes = some v2) (hne : b1 ≠ b2) : v1 ≠ v2 := by
  intro he
  have hm1 := scLookup_mem h1
  have hm2 := scLookup_mem h2
  have := List.inj_on_of_nodup_map h.2 hm1 hm2 (by simpa using he)
  exact hne (congrArg Prod.fst this)

/-- C1: for every tenant id `b`, a sequence of `forBot` requests starting
from a fresh `ScopeableService` invokes the factory exactly once for `b`
when `b` is requested at all (and never otherwise); two requests for the
same tenant id return the identical stored instance, and requests for
distinct tenant ids return distinct instances. -/
theorem forBot_per_tenant_cache (reqs : List String) (b : String) (i j : Nat)
    (hi : i < reqs.length) (hj : j < reqs.length) :
    ((scopeRun scopeInit reqs).1.calls.count b = if b ∈ reqs then 1 else 0) ∧
    (reqs.getD i "" = reqs.getD j "" →
      (scopeRun scopeInit reqs).2.getD i 0 = (scopeRun scopeInit reqs).2.getD j 0) ∧
    (reqs.getD i "" ≠ reqs.getD j "" →
      (scopeRun scopeInit reqs).2.getD i 0 ≠ (scopeRun scopeInit reqs).2.getD j 0) := by
  have hli := scopeRun_result_lookup reqs scopeInit i hi
  have hlj := scopeRun_result_lookup reqs scopeInit j hj
  refine ⟨?_, ?_, ?_⟩
  · rw [scopeRun_calls_count reqs scopeInit b]
    simp [scopeInit, scLookup]
  · intro he
    rw [he] at hli
    rw [hli] at hlj
    exact Option.some_injective _ hlj
  · intro hne
    have hinv : scopeInv (scopeRun scopeInit reqs).1 :=
      scopeRun_inv reqs scopeInit (by constructor <;> simp [scopeInit])
    exact scopeInv_lookup_inj hinv hli hlj hne

theorem forBot_per_tenant_cache_witness :
    ((scopeRun scopeInit ["b1", "b1", "b2"]).1.calls.count "b1" = 1) ∧
    ((scopeRun scopeInit ["b1", "b1", "b2"]).2.getD 0 0
      = (scopeRun scopeInit ["b1", "b1", "b2"]).2.getD 1 0) ∧
    ((scopeRun scopeInit ["b1", "b1", "b2"]).2.getD 0 0
      ≠ (scopeRun scopeInit ["b1", "b1", "b2"]).2.getD 2 0) :=
  ⟨by
    have h := (forBot_per_tenant_cache ["b1", "b1", "b2"] "b1" 0 1 (by decide) (by decide)).1
    simpa using h,
    (forBot_per_tenant_cache ["b1", "b1", "b2"] "b1" 0 1 (by decide) (by decide)).2.1
      (by decide),
    (forBot_per_tenant_cache ["b1", "b1", "b2"] "b1" 0 2 (by decide) (by decide)).2.2
      (by decide)⟩

/-! ### Falsy scopes (claim C10): the factory returns a falsy value -/

/-- A factory that always returns the falsy value `0` (JavaScript truthiness
on the instance: `0`, `''`, `null`, `undefined` are all falsy) and counts its
own invocations. -/
def falsyFactory (cnt : Nat) (_ : String) : Nat × Nat := (0, cnt + 1)

/-- JavaScript truthiness for the `Nat`-instance model: `0` is falsy. -/
def natTruthy (v : Nat) : Bool := v ≠ 0

/-- `n` repeated `forBot(b)` calls on one service whose factory always
returns the falsy value `0`.  Returns (scopes map, factory call count). -/
def falsyRun (b : String) : Nat → List (String × Nat) × Nat
  | 0 => ([], 0)
  | n + 1 =>
    match forBot natTruthy falsyFactory (falsyRun b n).1 (falsyRun b n).2 b with
    | (_, sc, cnt) => (sc, cnt)

theorem falsyRun_eq (b : String) : ∀ n : Nat,
    falsyRun b n = (List.replicate n (b, 0), n) := by
  intro n
  induction n with
  | zero => rfl
  | succ m ih =>
    cases m with
    | zero => simp [falsyRun, ih, forBot, scLookup, falsyFactory, List.replicate]
    | succ k =>
      rw [falsyRun, ih]
      simp [forBot, scLookup, List.replicate, natTruthy, falsyFactory]

/-- Counterexample to C10 as stated: after a single `forBot` call whose
factory returned the falsy value `0`, the value IS stored in the scopes map
(`this.scopes[botId] = scope` runs unconditionally on the miss path). -/
theorem forBot_falsy_is_stored :
    (forBot natTruthy falsyFactory [] 0 "b1").2.1 = [("b1", 0)] ∧
    scLookup "b1" (forBot natTruthy falsyFactory [] 0 "b1").2.1 = some 0 := by
  constructor <;> simp [forBot, scLookup, falsyFactory]

/-- C10 amended: when the factory returns a falsy value, that value is
returned AND stored, but because the cache lookup treats a stored falsy
value as a miss, every one of the `n` calls invokes the factory again, and
the next call still returns the falsy value. -/
theorem forBot_falsy_recreates (b : String) (n : Nat) (hn : 0 < n) :
    (falsyRun b n).2 = n ∧
    scLookup b (falsyRun b n).1 = some 0 ∧
    (forBot natTruthy falsyFactory (falsyRun b n).1 (falsyRun b n).2 b).1 = 0 := by
  rw [falsyRun_eq]
  cases n with
  | zero => cases hn
  | succ m =>
    refine ⟨rfl, ?_, ?_⟩
    · simp [List.replicate, scLookup]
    · simp [forBot, List.replicate, scLookup, natTruthy, falsyFactory]

theorem forBot_falsy_recreates_witness :
    (falsyRun "b1" 2).2 = 2 ∧
    scLookup "b1" (falsyRun "b1" 2).1 = some 0 ∧
    (forBot natTruthy falsyFactory (falsyRun "b1" 2).1 (falsyRun "b1" 2).2 "b1").1 = 0 :=
  forBot_falsy_recreates "b1" 2 (by decide)

/-! ## JavaScript value model and `_.cloneDeep`

JavaScript values are modelled as trees whose object nodes carry a heap
address.  Two values alias exactly when they share an address; an in-place
mutation performed through a reference with address `a` rewrites every
subtree rooted at `a`.  `_.cloneDeep` copies the structure and gives every
object node a fresh address, so a clone shares no address with the original.
-/

mutual
inductive JVal where
  | leaf (s : String)
  | obj (addr : Nat) (fields : JFields)
  deriving Repr, DecidableEq
inductive JFields where
  | nil
  | cons (key : String) (v : JVal) (rest : JFields)
  deriving Repr, DecidableEq
end

mutual
/-- Heap addresses occurring in a value. -/
def addrsV : JVal → List Nat
  | .leaf _ => []
  | .obj a fs => a :: addrsF fs
def addrsF : JFields → List Nat
  | .nil => []
  | .cons _ v rest => addrsV v ++ addrsF rest
end

mutual
/-- The pure content of a value: addresses erased (set to 0). -/
def stripV : JVal → JVal
  | .leaf s => .leaf s
  | .obj _ fs => .obj 0 (stripF fs)
def stripF : JFields → JFields
  | .nil => .nil
  | .cons k v rest => .cons k (stripV v) (stripF rest)
end

mutual
/-- `_.cloneDeep`: same structure, fresh addresses drawn from a counter
starting at `n`.  Returns the clone and the next unused counter. -/
def cloneV : Nat → JVal → JVal × Nat
  | n, .leaf s => (.leaf s, n)
  | n, .obj _ fs => (.obj n (cloneF (n + 1) fs).1, (cloneF (n + 1) fs).2)
def cloneF : Nat → JFields → JFields × Nat
  | n, .nil => (.nil, n)
  | n, .cons k v rest =>
    (.cons k (cloneV n v).1 (cloneF (cloneV n v).2 rest).1,
      (cloneF (cloneV n v).2 rest).2)
end

mutual
/-- An in-place mutation through a reference whose address is `a`: every
subtree rooted at `a` is rewritten by `g`. -/
def mutV (a : Nat) (g : JVal → JVal) : JVal → JVal
  | .leaf s => .leaf s
  | .obj ad fs => if ad = a then g (.obj ad fs) else .obj ad (mutF a g fs)
def mutF (a : Nat) (g : JVal → JVal) : JFields → JFields
  | .nil => .nil
  | .cons k v rest => .cons k (mutV a g v) (mutF a g rest)
end

mutual
theorem cloneV_counter_le (n : Nat) (v : JVal) : n ≤ (cloneV n v).2 := by
  cases v with
  | leaf s => simp [cloneV]
  | obj a fs =>
    have h := cloneF_counter_le (n + 1) fs
    simp only [cloneV]
    omega
theorem cloneF_counter_le (n : Nat) (fs : JFields) : n ≤ (cloneF n fs).2 := by
  cases fs with
  | nil => simp [cloneF]
  | cons k v rest =>
    have h1 := cloneV_counter_le n v
    have h2 := cloneF_counter_le (cloneV n v).2 rest
    simp only [cloneF]
    omega
end

mutual
theorem cloneV_addrs_ge (n : Nat) (v : JVal) :
    ∀ a ∈ addrsV (cloneV n v).1, n ≤ a := by
  cases v with
  | leaf s => intro a ha; simp [cloneV, addrsV] at ha
  | obj ad fs =>
    intro a ha
    simp only [cloneV, addrsV, List.mem_cons] at ha
    rcases ha with h | h
    · omega
    · have := cloneF_addrs_ge (n + 1) fs a h
      omega
theorem cloneF_addrs_ge (n : Nat) (fs : JFields) :
    ∀ a ∈ addrsF (cloneF n fs).1, n ≤ a := by
  cases fs with
  | nil => intro a ha; simp [cloneF, addrsF] at ha
  | cons k v rest =>
    intro a ha
    simp only [cloneF, addrsF, List.mem_append] at ha
    rcases ha with h | h
    · exact cloneV_addrs_ge n v a h
    · have h2 := cloneF_addrs_ge (cloneV n v).2 rest a h
      have h1 := cloneV_counter_le n v
      omega
end

mutual
theorem cloneV_strip (n : Nat) (v : JVal) : stripV (cloneV n v).1 = stripV v := by
  cases v with
  | leaf s => simp [cloneV, stripV]
  | obj ad fs => simp only [cloneV, stripV]; rw [cloneF_strip]
theorem cloneF_strip (n : Nat) (fs : JFields) : stripF (cloneF n fs).1 = stripF fs := by
  cases fs with
  | nil => simp [cloneF, stripF]
  | cons k v rest =>
    simp only [cloneF, stripF]
    rw [cloneV_strip, cloneF_strip]
end

mutual
theorem mutV_eq_of_not_mem (a : Nat) (g : JVal → JVal) (v : JVal)
    (h : a ∉ addrsV v) : mutV a g v = v := by
  cases v with
  | leaf s => simp [mutV]
  | obj ad fs =>
    simp only [addrsV, List.mem_cons, not_or] at h
    have hne : ¬ ad = a := fun e => h.1 e.symm
    simp only [mutV, if_neg hne]
    rw [mutF_eq_of_not_mem a g fs h.2]
theorem mutF_eq_of_not_mem (a : Nat) (g : JVal → JVal) (fs : JFields)
    (h : a ∉ addrsF fs) : mutF a g fs = fs := by
  cases fs with
  | nil => simp [mutF]
  | cons k v rest =>
    simp only [addrsF, List.mem_append, not_or] at h
    simp only [mutF]
    rw [mutV_eq_of_not_mem a g v h.1, mutF_eq_of_not_mem a g rest h.2]
end

/-! ## SlackChannel.send pipeline (src/api.ts)

`SlackContext` mirrors the object literal built at the top of `send`; the
opaque SDK client bundle (`client: {web, events, interactive}`) carries no
information the claims touch and is omitted.  Renderer and sender
implementations live outside the given sources, so they are abstract
`handles`/`render` (resp. `handles`/`send`) pairs; a `name` identifies a
chain entry in the instrumentation logs. -/

structure Conversation where
  id : String
  userId : String
  deriving Repr, DecidableEq

structure SlackMessage where
  blocks : List String
  deriving Repr, DecidableEq

structure SlackContext where
  handlers : List String
  payload : JVal
  botUrl : String
  message : SlackMessage
  channelId : Option String
  deriving Repr, DecidableEq

structure Renderer where
  name : String
  handles : SlackContext → Bool
  render : SlackContext → SlackContext

structure Sender (E : Type) where
  name : String
  handles : SlackContext → Bool
  send : SlackContext → Except E Unit

/-- The renderer chain declared by `setupRenderers`, in source order:
CardToCarousel, Text, Image, Carousel, Choices, Feedback. -/
def setupRenderers (card text image carousel choices feedback : Renderer) :
    List Renderer :=
  [card, text, image, carousel, choices, feedback]

/-- The sender chain declared by `setupSenders`, in source order:
Typing, Common. -/
def setupSenders {E : Type} (typing common : Sender E) : List (Sender E) :=
  [typing, common]

/-- `context.handlers.push('id')` — the marker the orchestrator appends after
a renderer fires. -/
def pushHandler (c : SlackContext) : SlackContext :=
  { c with handlers := c.handlers ++ ["id"] }

/-- The renderer loop of `send`: for each renderer in declared order, if
`handles(context)` then `render(context)` and push the marker; the mutated
context flows into the next iteration (cumulative rendering).  Also returns
the names of the renderers that fired, in order. -/
def runRenderers : List Renderer → SlackContext → SlackContext × List String
  | [], ctx => (ctx, [])
  | r :: rest, ctx =>
    if r.handles ctx then
      ((runRenderers rest (pushHandler (r.render ctx))).1,
        r.name :: (runRenderers rest (pushHandler (r.render ctx))).2)
    else runRenderers rest ctx

/-- The sender loop of `send`: for each sender in declared order, if
`handles(context)` then `await send(context)`; a rejected promise aborts the
loop and propagates.  Returns the names of the senders that were invoked, in
order, and the propagated error if any. -/
def runSenders {E : Type} : List (Sender E) → SlackContext → List String × Option E
  | [], _ => ([], none)
  | s :: rest, ctx =>
    if s.handles ctx then
      match s.send ctx with
      | .error e => ([s.name], some e)
      | .ok _ => (s.name :: (runSenders rest ctx).1, (runSenders rest ctx).2)
    else runSenders rest ctx

/-- The context literal built at the start of `send`: empty handler markers,
a deep copy of the payload (fresh addresses from `n`), the hard-coded bot
url, an empty block accumulator, and `conversation?.userId` as the channel
id (`none` models `undefined` when the conversation did not resolve). -/
def buildContext (payload : JVal) (n : Nat) (conversation : Option Conversation) :
    SlackContext :=
  { handlers := []
    payload := (cloneV n payload).1
    botUrl := "https://duckduckgo.com/"
    message := { blocks := [] }
    channelId := conversation.map Conversation.userId }

/-- Result of one `send` call: the context after the renderer loop, the
renderers that fired, the senders that were invoked, and the error a sender
rejected with, if any. -/
structure SendOut (E : Type) where
  ctx : SlackContext
  fired : List String
  invoked : List String
  err : Option E

/-- `SlackChannel.send`: resolve the conversation through the tenant-scoped
store, build the context, run the renderer loop, then the sender loop. -/
def sendRun {E : Type} (get : String → Option Conversation) (rs : List Renderer)
    (ss : List (Sender E)) (n : Nat) (conversationId : String) (payload : JVal) :
    SendOut E :=
  let ctx0 := buildContext payload n (get conversationId)
  let ctx1 := (runRenderers rs ctx0).1
  ⟨ctx1, (runRenderers rs ctx0).2, (runSenders ss ctx1).1, (runSenders ss ctx1).2⟩

/-- C2: `send` seeds its fresh context with a deep copy of the payload.
`buildContext` is the context literal at src/api.ts:103-111: handler markers
and wire blocks start empty, the copy has the same content as the caller's
payload, an in-place mutation through any reference of the caller's payload
leaves the context's copy unchanged (so mutating P after `send` starts does
not affect the in-flight context), and symmetrically a mutation through any
reference of the context's copy leaves the caller's payload unchanged (so
`send` never mutates the caller's original P). -/
theorem send_deep_copies_payload (get : String → Option Conversation)
    (n : Nat) (conversationId : String) (p : JVal) (g : JVal → JVal)
    (hwf : ∀ a ∈ addrsV p, a < n) :
    (buildContext p n (get conversationId)).handlers = [] ∧
    (buildContext p n (get conversationId)).message.blocks = [] ∧
    stripV (buildContext p n (get conversationId)).payload = stripV p ∧
    (∀ a ∈ addrsV p,
      mutV a g (buildContext p n (get conversationId)).payload
        = (buildContext p n (get conversationId)).payload) ∧
    (∀ a ∈ addrsV (buildContext p n (get conversationId)).payload,
      mutV a g p = p) := by
  refine ⟨rfl, rfl, cloneV_strip n p, ?_, ?_⟩
  · intro a ha
    apply mutV_eq_of_not_mem
    intro hmem
    have h1 := cloneV_addrs_ge n p a hmem
    have h2 := hwf a ha
    omega
  · intro a ha
    apply mutV_eq_of_not_mem
    intro hmem
    have h1 := cloneV_addrs_ge n p a ha
    have h2 := hwf a hmem
    omega

/-- Concrete payload for witnesses: `{type: 'text', text: 'hi'}` at heap
address 5. -/
def wPayload : JVal :=
  .obj 5 (.cons "type" (.leaf "text") (.cons "text" (.leaf "hi") .nil))

theorem send_deep_copies_payload_witness :
    stripV (buildContext wPayload 6 ((fun _ => none) "conv-1")).payload = stripV wPayload ∧
    mutV 5 (fun _ => .leaf "mutated") (buildContext wPayload 6 ((fun _ => none) "conv-1")).payload
      = (buildContext wPayload 6 ((fun _ => none) "conv-1")).payload :=
  ⟨(send_deep_copies_payload (fun _ => none) 6 "conv-1" wPayload (fun _ => .leaf "mutated")
      (by decide)).2.2.1,
    (send_deep_copies_payload (fun _ => none) 6 "conv-1" wPayload (fun _ => .leaf "mutated")
      (by decide)).2.2.2.1 5 (by decide)⟩

theorem runRenderers_append (xs ys : List Renderer) :
    ∀ ctx : SlackContext,
      runRenderers (xs ++ ys) ctx =
        ((runRenderers ys (runRenderers xs ctx).1).1,
          (runRenderers xs ctx).2 ++ (runRenderers ys (runRenderers xs ctx).1).2) := by
  induction xs with
  | nil => intro ctx; simp [runRenderers]
  | cons r rest ih =>
    intro ctx
    by_cases h : r.handles ctx = true
    · simp [runRenderers, h, ih]
    · simp only [List.cons_append, runRenderers, if_neg h]
      simp [ih]

theorem runRenderers_fired_sublist (rs : List Renderer) :
    ∀ ctx : SlackContext, (runRenderers rs ctx).2.Sublist (rs.map Renderer.name) := by
  induction rs with
  | nil => intro ctx; simp [runRenderers]
  | cons r rest ih =>
    intro ctx
    by_cases h : r.handles ctx = true
    · simp only [runRenderers, h, if_true, List.map_cons]
      exact List.Sublist.cons₂ _ (ih _)
    · simp only [runRenderers, if_neg h, List.map_cons]
      exact List.Sublist.cons _ (ih _)

theorem runRenderers_handlers (rs : List Renderer) :
    ∀ ctx : SlackContext,
      (∀ q ∈ rs, ∀ cx : SlackContext, (q.render cx).handlers = cx.handlers) →
      (runRenderers rs ctx).1.handlers
        = ctx.handlers ++ List.replicate (runRenderers rs ctx).2.length "id" := by
  induction rs with
  | nil => intro ctx _; simp [runRenderers]
  | cons r rest ih =>
    intro ctx hpres
    have hr : ∀ cx : SlackContext, (r.render cx).handlers = cx.handlers :=
      hpres r (List.mem_cons_self r rest)
    have hrest : ∀ q ∈ rest, ∀ cx : SlackContext, (q.render cx).handlers = cx.handlers :=
      fun q hq => hpres q (List.mem_cons_of_mem r hq)
    by_cases h : r.handles ctx = true
    · simp only [runRenderers, h, if_true, List.length_cons]
      rw [ih (pushHandler (r.render ctx)) hrest]
      simp [pushHandler, hr, List.replicate_succ, List.append_assoc]
    · simp only [runRenderers, if_neg h]
      exact ih ctx hrest

/-- C3: the renderer chain of `send`.  The chain declared by
`setupRenderers` is the fixed list CardToCarousel, Text, Image, Carousel,
Choices, Feedback, and the loop consults it front to back: the append and
singleton laws characterise the loop completely — a renderer whose
`handles` returns true on the context it is reached with has `render`
called on that context and a marker pushed, and the mutated context flows
on (cumulative, non-exclusive); the names that fired form a subsequence of
the declared order; and when renderers only append (never rewriting the
marker list), the final marker list is the initial one extended by exactly
one marker per firing.  Determinism across repeated calls is inherent:
`runRenderers` is a function of the chain and the context alone. -/
theorem renderer_chain_order (card text image carousel choices feedback r : Renderer)
    (rs xs ys : List Renderer) (ctx : SlackContext)
    (hpres : ∀ q ∈ rs, ∀ cx : SlackContext, (q.render cx).handlers = cx.handlers) :
    (runRenderers (xs ++ ys) ctx =
      ((runRenderers ys (runRenderers xs ctx).1).1,
        (runRenderers xs ctx).2 ++ (runRenderers ys (runRenderers xs ctx).1).2)) ∧
    (runRenderers [r] ctx =
      if r.handles ctx then (pushHandler (r.render ctx), [r.name]) else (ctx, [])) ∧
    ((runRenderers (setupRenderers card text image carousel choices feedback) ctx).2.Sublist
      [card.name, text.name, image.name, carousel.name, choices.name, feedback.name]) ∧
    ((runRenderers rs ctx).1.handlers
      = ctx.handlers ++ List.replicate (runRenderers rs ctx).2.length "id") := by
  refine ⟨runRenderers_append xs ys ctx, ?_, ?_, runRenderers_handlers rs ctx hpres⟩
  · by_cases h : r.handles ctx = true
    · simp [runRenderers, h]
    · have hb : r.handles ctx = false := by revert h; cases r.handles ctx <;> simp
      simp [runRenderers, hb]
  · have := runRenderers_fired_sublist
      (setupRenderers card text image carousel choices feedback) ctx
    simpa [setupRenderers] using this

/-- Witness renderer: fires always, appends one block (markers untouched). -/
def wRendText : Renderer :=
  ⟨"text", fun _ => true,
    fun cx => { cx with message := ⟨cx.message.blocks ++ ["textblock"]⟩ }⟩

/-- Witness renderer: never fires. -/
def wRendImage : Renderer := ⟨"image", fun _ => false, fun cx => cx⟩

/-- Witness context. -/
def wCtx : SlackContext := ⟨[], .leaf "hi", "https://duckduckgo.com/", ⟨[]⟩, none⟩

theorem renderer_chain_order_witness :
    (runRenderers [wRendText] wCtx =
      if wRendText.handles wCtx then (pushHandler (wRendText.render wCtx), [wRendText.name])
      else (wCtx, [])) ∧
    ((runRenderers [wRendText, wRendImage] wCtx).1.handlers
      = wCtx.handlers
        ++ List.replicate (runRenderers [wRendText, wRendImage] wCtx).2.length "id") :=
  ⟨(renderer_chain_order wRendText wRendText wRendText wRendText wRendText wRendText
      wRendText [] [] [] wCtx (fun q hq => by cases hq)).2.1,
    (renderer_chain_order wRendText wRendText wRendText wRendText wRendText wRendText
      wRendText [wRendText, wRendImage] [] [] wCtx (by
        intro q hq cx
        rcases List.mem_cons.1 hq with h | h
        · subst h; rfl
        · rcases List.mem_cons.1 h with h2 | h2
          · subst h2; rfl
          · cases h2)).2.2.2⟩

/-- C4: the sender chain of `send`.  The chain declared by `setupSenders`
is the fixed list Typing then Common; the loop runs it front to back,
awaiting each applicable sender before consulting the next, and a sender
whose `send` rejects propagates that error: the invocation log of the whole
chain is exactly the applicable prefix senders followed by the failing one —
nothing after it runs — and the error surfaces as the result of `send`
(the `err` component of `sendRun`). -/
theorem sender_chain_failfast {E : Type} (typing common : Sender E)
    (get : String → Option Conversation) (rs : List Renderer) (ss : List (Sender E))
    (pre post : List (Sender E)) (f : Sender E) (e : E) (ctx : SlackContext)
    (n : Nat) (conversationId : String) (p : JVal)
    (hpre : ∀ s ∈ pre, s.handles ctx = true → s.send ctx = .ok ())
    (hf : f.handles ctx = true) (he : f.send ctx = .error e) :
    setupSenders typing common = [typing, common] ∧
    runSenders (pre ++ f :: post) ctx
      = ((pre.filter (fun s => s.handles ctx)).map Sender.name ++ [f.name], some e) ∧
    (sendRun get rs ss n conversationId p).err
      = (runSenders ss (runRenderers rs (buildContext p n (get conversationId))).1).2 := by
  refine ⟨rfl, ?_, rfl⟩
  induction pre with
  | nil => simp [runSenders, hf, he]
  | cons s rest ih =>
    have hs := hpre s (List.mem_cons_self s rest)
    have hrest : ∀ q ∈ rest, q.handles ctx = true → q.send ctx = .ok () :=
      fun q hq => hpre q (List.mem_cons_of_mem s hq)
    by_cases h : s.handles ctx = true
    · simp only [List.cons_append, runSenders, h, if_true, hs h, List.append_eq]
      rw [ih hrest]
      simp [List.filter_cons, h]
    · simp only [List.cons_append, runSenders, if_neg h, List.append_eq]
      rw [ih hrest]
      simp [List.filter_cons, h]

/-- Witness sender: applicable, succeeds. -/
def wSenderTyping : Sender String := ⟨"typing", fun _ => true, fun _ => .ok ()⟩

/-- Witness sender: applicable, rejects. -/
def wSenderCommon : Sender String :=
  ⟨"common", fun _ => true, fun _ => .error "DeliveryError"⟩

theorem sender_chain_failfast_witness :
    runSenders [wSenderTyping, wSenderCommon] wCtx = (["typing", "common"], some "DeliveryError") :=
  by
  have h := (sender_chain_failfast wSenderTyping wSenderCommon (fun _ => none) [] []
    [wSenderTyping] [] wSenderCommon "DeliveryError" wCtx 0 "conv-1" (.leaf "hi")
    (by
      intro s hs hh
      rcases List.mem_cons.1 hs with h1 | h1
      · subst h1; rfl
      · cases h1)
    rfl rfl).2.1
  simpa [wSenderTyping, wSenderCommon] using h

/-- Witness conversation store that cannot resolve any conversation id
(`get` returns `undefined`). -/
def wNoStore : String → Option Conversation := fun _ => none

/-- Witness sender: applicable, succeeds, named like the common sender. -/
def wSenderOk : Sender String := ⟨"common", fun _ => true, fun _ => .ok ()⟩

/-- Counterexample to C9 as stated: with a conversation store that cannot
resolve `"conv-1"`, `send` does not surface any error and the chains still
run — here one renderer fires and one sender is invoked, and `err` is
`none`.  (src/api.ts:101,110: `conversation?.userId!` leaves `channelId`
undefined and execution falls through to the loops.) -/
theorem send_unresolved_counterexample :
    (sendRun wNoStore [wRendText] [wSenderOk] 0 "conv-1" (.leaf "hi")).fired = ["text"] ∧
    (sendRun wNoStore [wRendText] [wSenderOk] 0 "conv-1" (.leaf "hi")).invoked = ["common"] ∧
    (sendRun wNoStore [wRendText] [wSenderOk] 0 "conv-1" (.leaf "hi")).err = none :=
  ⟨rfl, rfl, rfl⟩

/-- C9 amended: when the tenant-scoped conversation store cannot resolve the
conversation id, `send` raises no `ResolutionError` and does not abort: the
seeded context's channel identifier is `undefined` (`none`) and the renderer
and sender chains run exactly as they would on a context built from no
conversation. -/
theorem send_unresolved_proceeds {E : Type} (get : String → Option Conversation)
    (rs : List Renderer) (ss : List (Sender E)) (n : Nat)
    (conversationId : String) (p : JVal) (hget : get conversationId = none) :
    (buildContext p n (get conversationId)).channelId = none ∧
    sendRun get rs ss n conversationId p
      = ⟨(runRenderers rs (buildContext p n none)).1,
          (runRenderers rs (buildContext p n none)).2,
          (runSenders ss (runRenderers rs (buildContext p n none)).1).1,
          (runSenders ss (runRenderers rs (buildContext p n none)).1).2⟩ := by
  constructor
  · rw [hget]; rfl
  · unfold sendRun
    rw [hget]

theorem send_unresolved_proceeds_witness :
    (buildContext (.leaf "hi") 0 (wNoStore "conv-1")).channelId = none ∧
    sendRun wNoStore [wRendText] [wSenderOk] 0 "conv-1" (.leaf "hi")
      = ⟨(runRenderers [wRendText] (buildContext (.leaf "hi") 0 none)).1,
          (runRenderers [wRendText] (buildContext (.leaf "hi") 0 none)).2,
          (runSenders [wSenderOk]
            (runRenderers [wRendText] (buildContext (.leaf "hi") 0 none)).1).1,
          (runSenders [wSenderOk]
            (runRenderers [wRendText] (buildContext (.leaf "hi") 0 none)).1).2⟩ :=
  send_unresolved_proceeds wNoStore [wRendText] [wSenderOk] 0 "conv-1" (.leaf "hi") rfl

/-! ## Inbound listeners (src/api.ts)

Each webhook handler is modelled as a pure function from the (extracted)
event to the ordered list of collaborator calls it performs; list order is
the temporal order of the awaited calls.  `receive` resolves the most
recent conversation through the tenant-scoped conversation store and then
records the message through the tenant-scoped message store. -/

/-- The body of an `axios.post(payload.response_url, ...)` control-mutation
call: `{text: ...}` replaces the control with static text,
`{delete_original: true}` deletes it. -/
inductive PostBody where
  | staticText (t : String)
  | deleteOriginal
  deriving Repr, DecidableEq

/-- The normalized inbound payload handed to `receive`. -/
inductive NormPayload where
  | textMsg (text : String)
  | quickReply (text : String) (payload : String)
  deriving Repr, DecidableEq

/-- A collaborator call performed by an inbound handler, in temporal order:
a control-mutation HTTP call on the response url, the conversation-store
`recent` lookup, or the message-store `create`. -/
inductive InEffect where
  | httpPost (url : String) (body : PostBody)
  | recentConv (channelId : String)
  | createMsg (payload : NormPayload) (userId : String)
  deriving Repr, DecidableEq

/-- `SlackChannel.receive`: look up the most recent conversation for the
channel, then create the message against it.  (The two raw identifier
shapes `channel.id`/`channel` resolve upstream of this model; `channelId`
and `userId` are the resolved identifiers.) -/
def receiveEffects (channelId userId : String) (payload : NormPayload) : List InEffect :=
  [.recentConv channelId, .createMsg payload userId]

/-- JavaScript `String.prototype.startsWith`. -/
def jsStartsWith (s pre : String) : Bool := pre.toList.isPrefixOf s.toList

/-- The fields the button listener extracts from an interactive payload
(`_.get(payload, 'actions[0].action_id', '')` etc.; `none` models a missing
path, defaulted to `''`), plus the resolved channel/user identifiers used
by `receive`. -/
structure ButtonPayload where
  actionId : Option String
  labelText : Option String
  value : Option String
  responseUrl : String
  channelId : String
  userId : String
  deriving Repr, DecidableEq

/-- The `{type: 'button'}` interactive handler
(src/api.ts:130-148): discard-tagged actions do nothing; `replace_buttons*`
posts `{text: '*label*'}` to the response url, `remove_buttons*` posts
`{delete_original: true}`; both awaited before `receive` produces the
quick-reply message. -/
def buttonHandler (p : ButtonPayload) : List InEffect :=
  let actionId := p.actionId.getD ""
  let label := p.labelText.getD ""
  let value := p.value.getD ""
  if jsStartsWith actionId "discard_action" then []
  else
    (if jsStartsWith actionId "replace_buttons" then
        [.httpPost p.responseUrl (.staticText ("*" ++ label ++ "*"))]
      else if jsStartsWith actionId "remove_buttons" then
        [.httpPost p.responseUrl .deleteOriginal]
      else [])
      ++ receiveEffects p.channelId p.userId (.quickReply label value)

/-- Two prefix tests on the same string cannot both succeed when neither
test string is a prefix of the other. -/
theorem jsStartsWith_disjoint {s p1 p2 : String}
    (h12 : ¬ p1.toList <+: p2.toList) (h21 : ¬ p2.toList <+: p1.toList)
    (hs : jsStartsWith s p1 = true) : jsStartsWith s p2 = false := by
  by_contra hb
  have h2 : jsStartsWith s p2 = true := by revert hb; cases jsStartsWith s p2 <;> simp
  rw [jsStartsWith, List.isPrefixOf_iff_prefix] at hs h2
  rcases List.prefix_or_prefix_of_prefix hs h2 with h | h
  · exact h12 h
  · exact h21 h

/-- C5: a `replace_buttons*` (resp. `remove_buttons*`) action performs its
control-mutation call on the response url — posting the selected label as
static text (resp. deleting the original control) — and awaits it strictly
BEFORE `receive` produces the inbound quick-reply message carrying the
action's label and value: the effect trace is exactly the mutation call
followed by the `receive` calls. -/
theorem control_mutation_before_receive (p : ButtonPayload) :
    (jsStartsWith (p.actionId.getD "") "replace_buttons" = true →
      buttonHandler p
        = .httpPost p.responseUrl (.staticText ("*" ++ p.labelText.getD "" ++ "*"))
          :: receiveEffects p.channelId p.userId
              (.quickReply (p.labelText.getD "") (p.value.getD ""))) ∧
    (jsStartsWith (p.actionId.getD "") "remove_buttons" = true →
      buttonHandler p
        = .httpPost p.responseUrl .deleteOriginal
          :: receiveEffects p.channelId p.userId
              (.quickReply (p.labelText.getD "") (p.value.getD ""))) := by
  constructor
  · intro h
    have hd : jsStartsWith (p.actionId.getD "") "discard_action" = false :=
      jsStartsWith_disjoint (by decide) (by decide) h
    simp [buttonHandler, h, hd]
  · intro h
    have hd : jsStartsWith (p.actionId.getD "") "discard_action" = false :=
      jsStartsWith_disjoint (by decide) (by decide) h
    have hr : jsStartsWith (p.actionId.getD "") "replace_buttons" = false :=
      jsStartsWith_disjoint (by decide) (by decide) h
    simp [buttonHandler, h, hd, hr]

/-- Witness interactive payloads. -/
def wReplaceAction : ButtonPayload :=
  ⟨some "replace_buttons::0", some "Yes", some "yes", "https://hooks.example/r", "C1", "U1"⟩

def wRemoveAction : ButtonPayload :=
  ⟨some "remove_buttons::0", some "No", some "no", "https://hooks.example/r", "C1", "U1"⟩

def wDiscardAction : ButtonPayload :=
  ⟨some "discard_action::open_url", some "Docs", some "url", "https://hooks.example/r", "C1", "U1"⟩

theorem control_mutation_before_receive_witness :
    buttonHandler wReplaceAction
      = .httpPost "https://hooks.example/r" (.staticText "*Yes*")
        :: receiveEffects "C1" "U1" (.quickReply "Yes" "yes") ∧
    buttonHandler wRemoveAction
      = .httpPost "https://hooks.example/r" .deleteOriginal
        :: receiveEffects "C1" "U1" (.quickReply "No" "no") :=
  ⟨(control_mutation_before_receive wReplaceAction).1 (by decide),
    (control_mutation_before_receive wRemoveAction).2 (by decide)⟩

/-- C6: a `discard_action*` interactive action is fully discarded: the
handler performs no collaborator call at all — no inbound message is
produced (`receive` is never reached) and no control-mutation call is
issued. -/
theorem discard_action_no_effects (p : ButtonPayload)
    (h : jsStartsWith (p.actionId.getD "") "discard_action" = true) :
    buttonHandler p = [] := by
  simp [buttonHandler, h]

theorem discard_action_no_effects_witness : buttonHandler wDiscardAction = [] :=
  discard_action_no_effects wDiscardAction (by decide)

/-- The pieces of a raw Slack file attachment the listener reads. -/
structure SlackFile where
  name : Option String
  title : Option String
  deriving Repr, DecidableEq

/-- The fields of a raw `message` event the listener reads.  `none` models
an absent field (`undefined`). -/
structure MessageEvent where
  subtype : Option String
  botId : Option String
  text : Option String
  files : List SlackFile
  channel : String
  user : String
  deriving Repr, DecidableEq

/-- The fixed discard set of `listenMessages` (src/api.ts:185). -/
def discardedSubtypes : List String := ["bot_message", "message_deleted", "message_changed"]

/-- JavaScript truthiness of a possibly-missing string: `undefined` and
`''` are falsy. -/
def jsTruthy : Option String → Bool
  | none => false
  | some s => s ≠ ""

/-- `discardedSubtypes.includes(payload.subtype)`: `includes(undefined)` is
false. -/
def subtypeDiscarded (st : Option String) : Bool :=
  match st with
  | some s => discardedSubtypes.contains s
  | none => false

/-- `_.find(candidates, x => x && x.length)`: first candidate that is
present and non-empty. -/
def firstTruthy : List (Option String) → Option String
  | [] => none
  | some s :: rest => if s ≠ "" then some s else firstTruthy rest
  | none :: rest => firstTruthy rest

/-- `_.find(_.at(payload, ['text', 'files.0.name', 'files.0.title']),
x => x && x.length) || 'N/A'` (src/api.ts:193). -/
def extractText (p : MessageEvent) : String :=
  (firstTruthy [p.text, p.files.head?.bind SlackFile.name,
    p.files.head?.bind SlackFile.title]).getD "N/A"

/-- The `message` event handler of `listenMessages` (src/api.ts:187-196):
discard events with a discarded subtype or a truthy `bot_id`; otherwise
hand the extracted text to `receive` as a `{type: 'text'}` payload. -/
def messageHandler (p : MessageEvent) : List InEffect :=
  if !subtypeDiscarded p.subtype && !jsTruthy p.botId then
    receiveEffects p.channel p.user (.textMsg (extractText p))
  else []

/-- C7: an inbound `message` event whose subtype is in the fixed discard
set (`bot_message`, `message_deleted`, `message_changed`) or that carries a
non-empty `bot_id` produces no stored inbound message: `receive` is not
invoked, so neither the conversation lookup nor the message store `create`
happens. -/
theorem filtered_message_not_stored (p : MessageEvent)
    (h : subtypeDiscarded p.subtype = true ∨ jsTruthy p.botId = true) :
    messageHandler p = [] := by
  rcases h with h | h <;> simp [messageHandler, h]

theorem filtered_message_not_stored_witness :
    messageHandler ⟨some "bot_message", none, some "hi", [], "C1", "U1"⟩ = [] ∧
    messageHandler ⟨none, some "B042", some "hi", [], "C1", "U1"⟩ = [] :=
  ⟨filtered_message_not_stored _ (Or.inl (by decide)),
    filtered_message_not_stored _ (Or.inr (by decide))⟩

/-- Modelled from the spec's words (§4.4): "extract display text using a
fallback priority order: primary text field, else first attachment's
filename, else first attachment's title, else a literal fallback marker —
the first non-empty candidate in that order wins". -/
def specExtractText (primary fname ftitle : Option String) : String :=
  if jsTruthy primary then primary.getD "N/A"
  else if jsTruthy fname then fname.getD "N/A"
  else if jsTruthy ftitle then ftitle.getD "N/A"
  else "N/A"

theorem firstTruthy_cons (o : Option String) (rest : List (Option String)) :
    firstTruthy (o :: rest) = if jsTruthy o then o else firstTruthy rest := by
  cases o with
  | none => simp [firstTruthy, jsTruthy]
  | some s =>
    by_cases hs : s = ""
    · subst hs; simp [firstTruthy, jsTruthy]
    · simp [firstTruthy, jsTruthy, hs]

theorem firstTruthy_spec (o1 o2 o3 : Option String) :
    (firstTruthy [o1, o2, o3]).getD "N/A" = specExtractText o1 o2 o3 := by
  rw [firstTruthy_cons, firstTruthy_cons, firstTruthy_cons]
  simp only [firstTruthy, specExtractText,
    apply_ite (fun o : Option String => o.getD "N/A"), Option.getD_none]

/-- C8: for a non-discarded message event, the extracted display text is
the first non-empty candidate among primary text, first attachment's
filename, first attachment's title, in that order (formalised by
`specExtractText`, written from the spec's words); in particular an empty
primary text with a non-empty first-attachment filename yields the
filename, and three empty candidates yield the literal marker `'N/A'`. -/
theorem text_extraction_priority (p : MessageEvent) :
    (extractText p = specExtractText p.text (p.files.head?.bind SlackFile.name)
        (p.files.head?.bind SlackFile.title)) ∧
    ((p.text = none ∨ p.text = some "") →
      ∀ f : String, p.files.head?.bind SlackFile.name = some f → f ≠ "" →
        extractText p = f) ∧
    ((p.text = none ∨ p.text = some "") →
      (p.files.head?.bind SlackFile.name = none
        ∨ p.files.head?.bind SlackFile.name = some "") →
      (p.files.head?.bind SlackFile.title = none
        ∨ p.files.head?.bind SlackFile.title = some "") →
      extractText p = "N/A") := by
  have hmain : extractText p = specExtractText p.text (p.files.head?.bind SlackFile.name)
      (p.files.head?.bind SlackFile.title) :=
    firstTruthy_spec p.text (p.files.head?.bind SlackFile.name)
      (p.files.head?.bind SlackFile.title)
  refine ⟨hmain, ?_, ?_⟩
  · intro hempty f hname hne
    have ht : jsTruthy p.text = false := by
      rcases hempty with h | h <;> simp [h, jsTruthy]
    rw [hmain, specExtractText, ht, hname]
    simp [jsTruthy, hne]
  · intro hempty hname htitle
    have ht : jsTruthy p.text = false := by
      rcases hempty with h | h <;> simp [h, jsTruthy]
    have hn : jsTruthy (p.files.head?.bind SlackFile.name) = false := by
      rcases hname with h | h <;> simp [h, jsTruthy]
    have hti : jsTruthy (p.files.head?.bind SlackFile.title) = false := by
      rcases htitle with h | h <;> simp [h, jsTruthy]
    rw [hmain, specExtractText, ht, hn, hti]
    simp

/-- Witness events for the extraction fallback. -/
def wFileEvent : MessageEvent :=
  ⟨none, none, some "", [⟨some "report.pdf", some "Report"⟩], "C1", "U1"⟩

def wEmptyEvent : MessageEvent := ⟨none, none, none, [], "C1", "U1"⟩

theorem text_extraction_priority_witness :
    extractText wFileEvent = "report.pdf" ∧ extractText wEmptyEvent = "N/A" :=
  ⟨(text_extraction_priority wFileEvent).2.1 (Or.inr rfl) "report.pdf" rfl (by decide),
    (text_extraction_priority wEmptyEvent).2.2 (Or.inl rfl) (Or.inl rfl) (Or.inl rfl)⟩
